import Mathlib

/-!
Verification development for the gesconge leave-management application.

The definitions below are a shallow embedding of the leave-approval workflow
and balance ledger of the repository: `leaves/models.py`, `leaves/forms.py`
and `leaves/views.py`.  Conventions of the embedding:

* Calendar dates are proleptic-Gregorian ordinals (`Int`), exactly the value
  of `datetime.date.toordinal()` in Python: ordinal 1 is 0001-01-01, a Monday.
  `weekday` and `date_year` reimplement `date.weekday()` and `date.year` on
  ordinals.
* Django `DecimalField` columns are modelled as `Rat`.
* Django `CharField` status columns are modelled as `String` (Django does not
  validate choices on `save()`, and the repository stores strings that are
  outside the declared choices in one code path).
* Each database table is a list of rows inside the state `St`; row creation
  respects the declared `unique_together` constraints by returning
  `Except.error` (the `IntegrityError` Django would surface) and leaving the
  state unchanged.
* Timestamps are abstract ticks (`Nat`); `timezone.now()` is a parameter.
-/

/-- Weekday of a Python date ordinal, `Monday = 0` .. `Sunday = 6`;
mirrors `datetime.date.weekday()` (ordinal 1 is a Monday). -/
def weekday (ord : Int) : Int :=
  (ord - 1).emod 7

/-- Gregorian calendar year of a Python date ordinal; mirrors
`datetime.date.year`.  Standard civil-from-days arithmetic: Python ordinal
`o` is `o - 719163` days after 1970-01-01. -/
def date_year (ord : Int) : Int :=
  let z := ord + 305
  let era := Int.fdiv z 146097
  let doe := z - era * 146097
  let yoe := Int.fdiv (doe - Int.fdiv doe 1460 + Int.fdiv doe 36524 - Int.fdiv doe 146096) 365
  let y := yoe + era * 400
  let doy := doe - (365 * yoe + Int.fdiv yoe 4 - Int.fdiv yoe 100)
  let mp := Int.fdiv (5 * doy + 2) 153
  let m := mp + (if mp < 10 then 3 else (-9 : Int))
  if m ≤ 2 then y + 1 else y

/-- Embeds `calculate_working_days` (`leaves/views.py` lines 38-52): inclusive
day count, then keep the days whose weekday is Monday..Friday.  The Python
function receives a `company` argument but never uses it (the comment in the
source says holidays should be taken into account but are not). -/
def calculate_working_days (start_date end_date : Int) : Nat :=
  let total_days := end_date - start_date + 1
  ((List.range total_days.toNat).filter
    (fun (i : Nat) => decide (weekday (start_date + (i : Int)) < 5))).length

/-- Organizational unit `Service` (`users/models.py`): only the fields the
workflow reads.  `manager` is a nullable FK (`on_delete=SET_NULL`). -/
structure Service where
  id : Nat
  manager_id : Option Nat
deriving DecidableEq, Repr

/-- Organizational unit `Department` (`users/models.py`): only the fields the
workflow reads.  `manager` is a nullable FK. -/
structure Department where
  id : Nat
  manager_id : Option Nat
deriving DecidableEq, Repr

/-- The custom `User` (`users/models.py`), restricted to the fields the
leave workflow reads.  The nullable `service` and `department` FKs are
embedded as options. -/
structure User where
  id : Nat
  role : String
  is_approver : Bool
  service : Option Service
  department : Option Department
deriving DecidableEq, Repr

/-- Embeds the `User.is_manager` property (`users/models.py` lines 195-197):
role in (manager, admin, hr) or the `is_approver` flag. -/
def User.is_manager (u : User) : Bool :=
  u.role == "manager" || u.role == "admin" || u.role == "hr" || u.is_approver

/-- The `LeaveType` model (`leaves/models.py`), restricted to the fields the
workflow reads.  `max_consecutive_days` is nullable. -/
structure LeaveType where
  id : Nat
  requires_approval : Bool
  deduct_from_balance : Bool
  max_consecutive_days : Option Nat
  min_notice_days : Nat
deriving DecidableEq, Repr

/-- The `LeaveRequest` model (`leaves/models.py`), with the owning user and
the leave type embedded in place of FKs. -/
structure LeaveRequest where
  id : Nat
  user : User
  leave_type : LeaveType
  start_date : Int
  end_date : Int
  total_days : Rat
  working_days : Rat
  status : String
  current_approval_level : Nat
  submitted_at : Option Nat
  approved_at : Option Nat
  rejected_at : Option Nat
  cancelled_at : Option Nat
deriving DecidableEq, Repr

/-- Embeds `LeaveRequest.save` (`leaves/models.py` lines 232-237): when
`total_days` is falsy (the default `0`), it is recomputed as
`(end_date - start_date).days + 1`.  Date fields are non-null columns, so
their truthiness test in the source is always true here. -/
def LeaveRequest.model_save (r : LeaveRequest) : LeaveRequest :=
  if r.total_days = 0 then
    { r with total_days := ((r.end_date - r.start_date : Int) : Rat) + 1 }
  else r

/-- The `LeaveApproval` model (`leaves/models.py`).  `approver` is declared
non-null in the model, but `leave_create_view` passes a possibly-`None`
routed value, so the field is kept optional here to carry that value to the
insert, where `create_approval` enforces the non-null constraint by raising
(as Django does) without storing a row. -/
structure LeaveApproval where
  id : Nat
  leave_request_id : Nat
  approver_id : Option Nat
  approval_level : Nat
  status : String
  comments : String
  signed_at : Option Nat
  signed_by : Option Nat
deriving DecidableEq, Repr

/-- The `LeaveBalance` model (`leaves/models.py`): the per
(user, leave_type, year) ledger row with its four decimal counters. -/
structure LeaveBalance where
  user_id : Nat
  leave_type_id : Nat
  year : Int
  entitled_days : Rat
  used_days : Rat
  pending_days : Rat
  carried_over_days : Rat
deriving DecidableEq, Repr

/-- Embeds the `LeaveBalance.remaining_days` property (`leaves/models.py`
lines 116-118): a derived read, not a stored column. -/
def LeaveBalance.remaining_days (b : LeaveBalance) : Rat :=
  b.entitled_days + b.carried_over_days - b.used_days - b.pending_days

/-- Database state: the three mutable tables of the workflow plus the
primary-key counters used when inserting rows. -/
structure St where
  requests : List LeaveRequest
  approvals : List LeaveApproval
  balances : List LeaveBalance
  next_request_id : Nat
  next_approval_id : Nat
deriving DecidableEq, Repr

/-- Embeds the default level-1 approver routing expression used in
`leave_create_view` (lines 216-217) and `leave_update_view` (lines 281-282):
`user.service.manager if user.service else user.department.manager if
user.department else None`.  Note the fallback happens on the absence of the
service itself, not on the absence of its manager. -/
def default_approver (u : User) : Option Nat :=
  match u.service with
  | some s => s.manager_id
  | none =>
    match u.department with
    | some d => d.manager_id
    | none => none

/-- Modelled from the spec wording of `route_initial_approver` (spec section
4.2): resolve the approver as the service manager, falling back to the
department manager, falling back to none.  Written from the claim text, to be
compared with `default_approver`, which is written from the source. -/
def route_initial_approver_spec (u : User) : Option Nat :=
  match u.service.bind Service.manager_id with
  | some m => some m
  | none =>
    match u.department.bind Department.manager_id with
    | some m => some m
    | none => none

/-- Key of the `unique_together ('leave_request', 'approval_level')`
constraint on `LeaveApproval` (`leaves/models.py` lines 287-290). -/
def approval_key (a : LeaveApproval) : Nat × Nat :=
  (a.leave_request_id, a.approval_level)

/-- Inserts a `LeaveApproval` row as `LeaveApproval.objects.create` does in
`leave_create_view` lines 214-220.  The `approver` FK is declared non-null
(`leaves/models.py` line 248), so passing `None` raises before any row is
inserted; and the database rejects a duplicate
(leave_request, approval_level) pair with an `IntegrityError`, also adding
no row. -/
def create_approval (st : St) (leave_id : Nat) (approver : Option Nat)
    (level : Nat) : Except String St :=
  match approver with
  | none => Except.error "null approver"
  | some aid =>
    if st.approvals.any (fun a =>
        a.leave_request_id == leave_id && a.approval_level == level) then
      Except.error "IntegrityError"
    else
      Except.ok { st with
        approvals := st.approvals ++
          [{ id := st.next_approval_id, leave_request_id := leave_id,
             approver_id := some aid, approval_level := level,
             status := "pending", comments := "",
             signed_at := none, signed_by := none }],
        next_approval_id := st.next_approval_id + 1 }

/-- Embeds `LeaveApproval.objects.get_or_create(leave_request=..,
approver=.., defaults={approval_level: 1, status: pending})` as used in
`approval_action_view` lines 460-467 and `bulk_approval_view` lines 566-573:
lookup is by (leave_request, approver); a fresh insert can still violate the
(leave_request, approval_level) unique constraint and then raises.  The
returned flag is the `created` boolean. -/
def get_or_create_approval (st : St) (leave_id actor_id : Nat)
    (default_level : Nat) : Except String (LeaveApproval × St × Bool) :=
  match st.approvals.find? (fun a =>
      a.leave_request_id == leave_id && a.approver_id == some actor_id) with
  | some a => Except.ok (a, st, false)
  | none =>
    if st.approvals.any (fun a =>
        a.leave_request_id == leave_id && a.approval_level == default_level) then
      Except.error "IntegrityError"
    else
      let a : LeaveApproval :=
        { id := st.next_approval_id, leave_request_id := leave_id,
          approver_id := some actor_id, approval_level := default_level,
          status := "pending", comments := "",
          signed_at := none, signed_by := none }
      Except.ok (a, { st with
        approvals := st.approvals ++ [a],
        next_approval_id := st.next_approval_id + 1 }, true)

/-- Persists an updated `LeaveApproval` row (a Django `save()` on an existing
instance): the row with the same primary key is replaced. -/
def save_approval (st : St) (a : LeaveApproval) : St :=
  { st with approvals := st.approvals.map (fun b => if b.id == a.id then a else b) }

/-- Persists an updated `LeaveRequest` row, replacing by primary key. -/
def save_request (st : St) (r : LeaveRequest) : St :=
  { st with requests := st.requests.map (fun b => if b.id == r.id then r else b) }

/-- Embeds `LeaveBalance.objects.get_or_create(user=.., leave_type=..,
year=.., defaults={..: 0})` (`leaves/views.py` lines 497-502, 589-594,
822-831, 931-940): the row keyed by (user, leave_type, year) or a fresh row
with all counters zero. -/
def get_or_create_balance (st : St) (user_id leave_type_id : Nat)
    (year : Int) : LeaveBalance × St :=
  match st.balances.find? (fun b =>
      b.user_id == user_id && b.leave_type_id == leave_type_id
        && b.year == year) with
  | some b => (b, st)
  | none =>
    let b : LeaveBalance :=
      { user_id := user_id, leave_type_id := leave_type_id, year := year,
        entitled_days := 0, used_days := 0, pending_days := 0,
        carried_over_days := 0 }
    (b, { st with balances := st.balances ++ [b] })

/-- Persists an updated `LeaveBalance` row, replacing by the unique
(user, leave_type, year) key. -/
def save_balance (st : St) (b : LeaveBalance) : St :=
  { st with balances := st.balances.map (fun c =>
      if c.user_id == b.user_id && c.leave_type_id == b.leave_type_id
          && c.year == b.year then b else c) }

/-- Looks up a request row by primary key. -/
def find_request (st : St) (leave_id : Nat) : Option LeaveRequest :=
  st.requests.find? (fun r => r.id == leave_id)

/-- Looks up a balance row by its unique key. -/
def find_balance (st : St) (user_id leave_type_id : Nat) (year : Int) :
    Option LeaveBalance :=
  st.balances.find? (fun b =>
    b.user_id == user_id && b.leave_type_id == leave_type_id && b.year == year)

/-- Input of `LeaveRequestForm` (`leaves/forms.py`): the cleaned field values
the `clean` method reads.  Times are minutes of the day. -/
structure LeaveRequestFormInput where
  leave_type : LeaveType
  start_date : Int
  end_date : Int
  start_day_type : String
  end_day_type : String
  start_time : Option Nat
  end_time : Option Nat
deriving DecidableEq, Repr

/-- Overlap condition of `LeaveRequestForm.clean` (`leaves/forms.py` lines
114-129): another request of the same user, pending or approved, with
`start_date <= new end` and `end_date >= new start`, excluding the form
instance when it has a primary key. -/
def overlaps_existing (existing : List LeaveRequest) (user_id : Nat)
    (instance_id : Option Nat) (start_date end_date : Int) : Bool :=
  existing.any (fun r =>
    r.user.id == user_id
      && (r.status == "pending" || r.status == "approved")
      && r.start_date ≤ end_date && r.end_date ≥ start_date
      && (match instance_id with
          | some i => !(r.id == i)
          | none => true))

/-- Embeds `LeaveRequestForm.clean` (`leaves/forms.py` lines 72-131) over the
existing request table: the checks run in source order and the first failing
one raises `ValidationError`.  Date fields are required, so the
`if start_date and end_date` guard of the source is always taken. -/
def leave_request_form_clean (existing : List LeaveRequest) (user_id : Nat)
    (instance_id : Option Nat) (today : Int) (f : LeaveRequestFormInput) :
    Except String Unit :=
  if f.start_date > f.end_date then
    Except.error "start after end"
  else if f.leave_type.min_notice_days > 0
      && f.start_date < today + (f.leave_type.min_notice_days : Int) then
    Except.error "notice period"
  else if (match f.leave_type.max_consecutive_days with
           | some m => m ≠ 0 && f.end_date - f.start_date + 1 > (m : Int)
           | none => false) then
    Except.error "max consecutive days"
  else if (f.start_day_type == "specific_hours"
        || f.end_day_type == "specific_hours")
      && (f.start_time.isNone || f.end_time.isNone) then
    Except.error "times required"
  else if (f.start_day_type == "specific_hours"
        || f.end_day_type == "specific_hours")
      && (match f.start_time, f.end_time with
          | some a, some b => a ≥ b
          | _, _ => false) then
    Except.error "start time after end time"
  else if overlaps_existing existing user_id instance_id
      f.start_date f.end_date then
    Except.error "overlapping leave"
  else
    Except.ok ()

/-- Input of `LeaveApprovalForm` (`leaves/forms.py` lines 140-176): the two
editable fields. -/
structure ApprovalFormInput where
  status : String
  comments : String
deriving DecidableEq, Repr

/-- Embeds the validation of `LeaveApprovalForm`: the model form accepts only
the declared status choices, and `clean` (lines 167-176) adds an error when
status is rejected and comments are empty. -/
def approval_form_is_valid (input : ApprovalFormInput) : Bool :=
  (input.status == "pending" || input.status == "approved"
    || input.status == "rejected")
  && !(input.status == "rejected" && input.comments == "")

/-- Outcome of a view call that did not raise: the redirect after a processed
decision, a re-rendered invalid form, or the permission-refusal redirect. -/
inductive ActionResult where
  | redirected
  | invalid_form
  | not_allowed
deriving DecidableEq, Repr

/-- Embeds the approval resolution of `approval_action_view` (lines 443-471):
first the pending approval assigned to the actor; otherwise, when the actor
is a manager and is the service or department manager of the request owner,
`get_or_create` keyed by (leave_request, approver). -/
def approval_action_resolve (st : St) (leave : LeaveRequest) (actor : User) :
    Except String (Option LeaveApproval × St) :=
  match st.approvals.find? (fun a =>
      a.leave_request_id == leave.id && a.approver_id == some actor.id
        && a.status == "pending") with
  | some a => Except.ok (some a, st)
  | none =>
    if actor.is_manager
        && ((match leave.user.service with
             | some s => s.manager_id == some actor.id
             | none => false)
          || (match leave.user.department with
              | some d => d.manager_id == some actor.id
              | none => false)) then
      match get_or_create_approval st leave.id actor.id 1 with
      | Except.ok (a, st1, _) => Except.ok (some a, st1)
      | Except.error e => Except.error e
    else
      Except.ok (none, st)

/-- Embeds the POST branch of `approval_action_view` (`leaves/views.py`
lines 439-531): resolve the approval, validate the form, sign and save the
decision, then update the request; below level 3 an approval only increments
`current_approval_level`, at level 3 it finalizes the request as approved and
debits the balance when the leave type deducts from it; a rejection finalizes
the request as rejected. -/
def approval_action (st : St) (leave_id : Nat) (actor : User)
    (input : ApprovalFormInput) (now : Nat) :
    Except String (St × ActionResult) :=
  match find_request st leave_id with
  | none => Except.error "404"
  | some leave =>
    match approval_action_resolve st leave actor with
    | Except.error e => Except.error e
    | Except.ok (none, st1) => Except.ok (st1, ActionResult.not_allowed)
    | Except.ok (some approval, st1) =>
      if approval_form_is_valid input then
        let approval2 := { approval with
          status := input.status, comments := input.comments,
          signed_at := some now, signed_by := some actor.id }
        let st2 := save_approval st1 approval2
        let st3 :=
          if approval2.status == "approved" then
            if leave.current_approval_level < 3 then
              save_request st2
                { leave with
                  current_approval_level := leave.current_approval_level + 1 }
            else
              let leave2 := { leave with
                status := "approved", approved_at := some now }
              let st3a := save_request st2 leave2
              if leave.leave_type.deduct_from_balance then
                let (balance, st4) := get_or_create_balance st3a
                  leave.user.id leave.leave_type.id (date_year leave.start_date)
                save_balance st4
                  { balance with
                    used_days := balance.used_days + leave.working_days }
              else st3a
          else if approval2.status == "rejected" then
            save_request st2
              { leave with status := "rejected", rejected_at := some now }
          else st2
        Except.ok (st3, ActionResult.redirected)
      else
        Except.ok (st1, ActionResult.invalid_form)

/-- Input of `BulkLeaveApprovalForm` (`leaves/forms.py` lines 564-595). -/
structure BulkFormInput where
  leave_request_ids : List Nat
  action : String
  comments : String
deriving DecidableEq, Repr

/-- The queryset of `BulkLeaveApprovalForm` for a given approver: pending
requests having a pending approval assigned to that approver
(`leaves/forms.py` lines 589-595). -/
def bulk_selectable (st : St) (approver_id : Nat) (leave_id : Nat) : Bool :=
  match find_request st leave_id with
  | none => false
  | some r =>
    r.status == "pending"
      && st.approvals.any (fun a =>
        a.leave_request_id == r.id && a.approver_id == some approver_id
          && a.status == "pending")

/-- Embeds the validation of `BulkLeaveApprovalForm`: the multiple-choice
field requires a non-empty selection and rejects any id outside its queryset
as a whole (all-or-nothing), and the action must be one of the two declared
choices, which submit the literals `approve` and `reject`. -/
def bulk_form_is_valid (st : St) (approver_id : Nat)
    (input : BulkFormInput) : Bool :=
  !input.leave_request_ids.isEmpty
    && input.leave_request_ids.all (bulk_selectable st approver_id)
    && (input.action == "approve" || input.action == "reject")

/-- Embeds one iteration of the processing loop of `bulk_approval_view`
(`leaves/views.py` lines 564-609).  Faithful to the source: the approval
status is set to the raw action literal, comments are kept only when the
action equals the literal `rejected` (which the form never submits), and the
request is finalized as approved only when the action equals the literal
`approved` (also never submitted), otherwise as rejected. -/
def bulk_process_one (actor : User) (action comments : String) (now : Nat)
    (st : St) (leave_id : Nat) : Except String St :=
  match find_request st leave_id with
  | none => Except.error "404"
  | some leave =>
    match get_or_create_approval st leave.id actor.id 1 with
    | Except.error e => Except.error e
    | Except.ok (approval, st1, _) =>
      let approval2 := { approval with
        status := action,
        comments := if action == "rejected" then comments else "",
        signed_at := some now, signed_by := some actor.id }
      let st2 := save_approval st1 approval2
      if action == "approved" then
        let leave2 := { leave with
          status := "approved", approved_at := some now }
        let st3 :=
          if leave.leave_type.deduct_from_balance then
            let (balance, st4) := get_or_create_balance st2
              leave.user.id leave.leave_type.id (date_year leave.start_date)
            save_balance st4
              { balance with
                used_days := balance.used_days + leave.working_days }
          else st2
        Except.ok (save_request st3 leave2)
      else
        Except.ok (save_request st2
          { leave with status := "rejected", rejected_at := some now })

/-- Folds `bulk_process_one` over the selected ids, counting processed items;
an uncaught exception aborts the remaining iterations (the view has no
per-item error handling and no enclosing transaction). -/
def bulk_loop (actor : User) (action comments : String) (now : Nat) :
    St → Nat → List Nat → Except String (St × Nat)
  | st, count, [] => Except.ok (st, count)
  | st, count, leave_id :: rest =>
    match bulk_process_one actor action comments now st leave_id with
    | Except.error e => Except.error e
    | Except.ok st1 => bulk_loop actor action comments now st1 (count + 1) rest

/-- Embeds the POST branch of `bulk_approval_view` (`leaves/views.py` lines
544-622) behind the `manager_or_above_required` decorator: an invalid form
(or a non-manager actor) processes nothing; a valid form processes every
selected request.  Returns the state, the processed count and whether the
form was accepted. -/
def bulk_approval (st : St) (actor : User) (input : BulkFormInput)
    (now : Nat) : Except String (St × Nat × Bool) :=
  if !actor.is_manager then
    Except.ok (st, 0, false)
  else if bulk_form_is_valid st actor.id input then
    match bulk_loop actor input.action input.comments now st 0
        input.leave_request_ids with
    | Except.error e => Except.error e
    | Except.ok (st1, count) => Except.ok (st1, count, true)
  else
    Except.ok (st, 0, false)

/-- The request row built by the submission branch of `leave_create_view`
(`leaves/views.py` lines 192-203): status pending, submission timestamp,
`total_days = (end - start).days + 1` and
`working_days = calculate_working_days(start, end)`. -/
def submitted_leave (st : St) (u : User) (f : LeaveRequestFormInput)
    (now : Nat) : LeaveRequest :=
  { id := st.next_request_id, user := u, leave_type := f.leave_type,
    start_date := f.start_date, end_date := f.end_date,
    total_days := ((f.end_date - f.start_date : Int) : Rat) + 1,
    working_days := (calculate_working_days f.start_date f.end_date : Rat),
    status := "pending", current_approval_level := 1,
    submitted_at := some now, approved_at := none,
    rejected_at := none, cancelled_at := none }

/-- Embeds the submission branch of `leave_create_view` (`leaves/views.py`
lines 188-236): validate the form, store the `submitted_leave` row, then —
the workflow lookup being a TODO left as `None` in the source — create the
single level-1 approval routed by `default_approver` when the leave type
requires approval.  Returns the state and whether the form was accepted. -/
def leave_create_submit (st : St) (u : User) (f : LeaveRequestFormInput)
    (today : Int) (now : Nat) : Except String (St × Bool) :=
  match leave_request_form_clean st.requests u.id none today f with
  | Except.error _ => Except.ok (st, false)
  | Except.ok () =>
    let leave := submitted_leave st u f now
    let st1 := { st with
      requests := st.requests ++ [leave.model_save],
      next_request_id := st.next_request_id + 1 }
    if f.leave_type.requires_approval then
      match create_approval st1 leave.id (default_approver u) 1 with
      | Except.error e => Except.error e
      | Except.ok st2 => Except.ok (st2, true)
    else
      Except.ok (st1, true)

/-- Embeds the adjustment dispatch of `balance_adjust_view`
(`leaves/views.py` lines 840-858): nine adjustment kinds over one balance
row; subtract kinds clamp at zero with `max(0, value - amount)`, set kinds
assign the amount, unknown kinds leave the row unchanged.  The form feeding
this view validates `amount >= 0` (`LeaveBalanceAdjustForm.amount` has
`min_value=0`). -/
def apply_adjustment (adjustment_type : String) (amount : Rat)
    (b : LeaveBalance) : LeaveBalance :=
  if adjustment_type == "add_entitled" then
    { b with entitled_days := b.entitled_days + amount }
  else if adjustment_type == "subtract_entitled" then
    { b with entitled_days := max 0 (b.entitled_days - amount) }
  else if adjustment_type == "add_used" then
    { b with used_days := b.used_days + amount }
  else if adjustment_type == "subtract_used" then
    { b with used_days := max 0 (b.used_days - amount) }
  else if adjustment_type == "add_carried" then
    { b with carried_over_days := b.carried_over_days + amount }
  else if adjustment_type == "subtract_carried" then
    { b with carried_over_days := max 0 (b.carried_over_days - amount) }
  else if adjustment_type == "set_entitled" then
    { b with entitled_days := amount }
  else if adjustment_type == "set_used" then
    { b with used_days := amount }
  else if adjustment_type == "set_carried" then
    { b with carried_over_days := amount }
  else b

/-- Embeds the adjustment dispatch of `bulk_balance_adjust_view`
(`leaves/views.py` lines 942-947): only the three entitled kinds are
handled.  The amount comes from `float(request.POST.get("amount", 0))` with
no validation at all, so any rational can reach this function. -/
def apply_bulk_adjustment (adjustment_type : String) (amount : Rat)
    (b : LeaveBalance) : LeaveBalance :=
  if adjustment_type == "add_entitled" then
    { b with entitled_days := b.entitled_days + amount }
  else if adjustment_type == "subtract_entitled" then
    { b with entitled_days := max 0 (b.entitled_days - amount) }
  else if adjustment_type == "set_entitled" then
    { b with entitled_days := amount }
  else b

/-- Embeds the approval-time debit applied on final approval
(`leaves/views.py` lines 503 and 595): `used_days += working_days`. -/
def debit_balance (b : LeaveBalance) (working_days : Rat) : LeaveBalance :=
  { b with used_days := b.used_days + working_days }

/-- The fresh balance row produced by the `get_or_create` defaults of the
balance views: all four counters zero. -/
def fresh_balance (user_id leave_type_id : Nat) (year : Int) : LeaveBalance :=
  { user_id := user_id, leave_type_id := leave_type_id, year := year,
    entitled_days := 0, used_days := 0, pending_days := 0,
    carried_over_days := 0 }

/-- A single mutation of one balance row, as performed by the repository:
an administrative adjustment, a bulk adjustment, or the approval-time
debit. -/
inductive BalanceOp where
  | adjust (adjustment_type : String) (amount : Rat)
  | bulk_adjust (adjustment_type : String) (amount : Rat)
  | debit (working_days : Rat)
deriving DecidableEq, Repr

/-- Applies one balance mutation. -/
def apply_balance_op (b : LeaveBalance) : BalanceOp → LeaveBalance
  | BalanceOp.adjust t amount => apply_adjustment t amount b
  | BalanceOp.bulk_adjust t amount => apply_bulk_adjustment t amount b
  | BalanceOp.debit w => debit_balance b w

/-- Applies a sequence of balance mutations in order. -/
def apply_balance_ops (b : LeaveBalance) (ops : List BalanceOp) : LeaveBalance :=
  ops.foldl apply_balance_op b

/-- All four stored counters of a balance row are non-negative. -/
def BalanceNonNeg (b : LeaveBalance) : Prop :=
  0 ≤ b.entitled_days ∧ 0 ≤ b.used_days ∧ 0 ≤ b.pending_days
    ∧ 0 ≤ b.carried_over_days

instance (b : LeaveBalance) : Decidable (BalanceNonNeg b) := by
  unfold BalanceNonNeg; infer_instance

/-- Reads the `used_days` counter of the balance row with the given key,
zero when the row does not exist yet. -/
def balance_used (st : St) (user_id leave_type_id : Nat) (year : Int) : Rat :=
  match find_balance st user_id leave_type_id year with
  | some b => b.used_days
  | none => 0

/-- Extracts the database state of a view call that processed its form and
redirected; `none` for an error, an invalid form or a refusal. -/
def state_after (r : Except String (St × ActionResult)) : Option St :=
  match r with
  | Except.ok (st, ActionResult.redirected) => some st
  | _ => none

/-- The approvals table satisfies the `unique_together` constraint on
(leave_request, approval_level), together with primary-key uniqueness. -/
def ApprovalsOk (l : List LeaveApproval) : Prop :=
  l.Pairwise (fun a b => a.id ≠ b.id ∧ approval_key a ≠ approval_key b)

instance (l : List LeaveApproval) : Decidable (ApprovalsOk l) := by
  unfold ApprovalsOk; infer_instance

/-- Well-formedness of a database state: the approvals table satisfies its
unique constraints and the primary-key counter dominates the stored keys. -/
def StOk (st : St) : Prop :=
  ApprovalsOk st.approvals ∧ ∀ a ∈ st.approvals, a.id < st.next_approval_id

instance (st : St) : Decidable (StOk st) := by
  unfold StOk; infer_instance

/-- Fixture: a service managed by user 100. -/
def exService : Service := { id := 5, manager_id := some 100 }

/-- Fixture: the manager of `exService`. -/
def exManager : User :=
  { id := 100, role := "manager", is_approver := false,
    service := none, department := none }

/-- Fixture: an employee belonging to `exService`. -/
def exOwner : User :=
  { id := 1, role := "employee", is_approver := false,
    service := some exService, department := none }

/-- Fixture: a leave type that requires approval and deducts from the
balance. -/
def exLeaveType : LeaveType :=
  { id := 2, requires_approval := true, deduct_from_balance := true,
    max_consecutive_days := none, min_notice_days := 0 }

/-- Fixture: a submitted pending request of `exOwner`, 2024-02-01 to
2024-02-07 (ordinals 738917 to 738923), 7 total days, 5 working days. -/
def exRequest : LeaveRequest :=
  { id := 1, user := exOwner, leave_type := exLeaveType,
    start_date := 738917, end_date := 738923, total_days := 7,
    working_days := 5, status := "pending", current_approval_level := 1,
    submitted_at := some 0, approved_at := none, rejected_at := none,
    cancelled_at := none }

/-- Fixture: the level-1 pending approval of `exRequest`, assigned to
`exManager` at submission. -/
def exApproval : LeaveApproval :=
  { id := 10, leave_request_id := 1, approver_id := some 100,
    approval_level := 1, status := "pending", comments := "",
    signed_at := none, signed_by := none }

/-- Fixture: the database right after `exRequest` was submitted. -/
def exSt : St :=
  { requests := [exRequest], approvals := [exApproval], balances := [],
    next_request_id := 2, next_approval_id := 11 }

/-- Fixture: an approve decision with empty comments. -/
def approve_input : ApprovalFormInput := { status := "approved", comments := "" }

/-- Iterates `approval_action` on `exSt`: the same manager keeps submitting
the same approve decision for request 1. -/
def exC1_chain : Nat → Option St
  | 0 => some exSt
  | n + 1 => (exC1_chain n).bind (fun st =>
      state_after (approval_action st 1 exManager approve_input (n + 1)))

/-- Fixture: a second pending request of `exOwner` (March 2024), with its
pending approval by `exManager`. -/
def exRequest2 : LeaveRequest :=
  { exRequest with
    id := 2
    start_date := 738946
    end_date := 738947
    total_days := 2
    working_days := 2 }

/-- Fixture: a third pending request of `exOwner` (April 2024) that has no
approval row assigned to `exManager`. -/
def exRequest3 : LeaveRequest :=
  { exRequest with
    id := 3
    start_date := 738977
    end_date := 738978
    total_days := 2
    working_days := 2 }

/-- Fixture: the pending level-1 approval of `exRequest2`. -/
def exApproval2 : LeaveApproval :=
  { exApproval with id := 11, leave_request_id := 2 }

/-- Fixture: a database with three pending requests of which only the first
two carry a pending approval assigned to `exManager`. -/
def exSt3 : St :=
  { requests := [exRequest, exRequest2, exRequest3],
    approvals := [exApproval, exApproval2], balances := [],
    next_request_id := 4, next_approval_id := 12 }

/-- Fixture: a user whose service has no manager while the department has
manager 7. -/
def exC8_user : User :=
  { id := 3, role := "employee", is_approver := false,
    service := some { id := 9, manager_id := none },
    department := some { id := 4, manager_id := some 7 } }

/-- Fixture: a request saved without an explicit `total_days`. -/
def exC6_request : LeaveRequest := { exRequest with total_days := 0 }

/-- Fixture: a fresh submission far away from the existing requests. -/
def exC8_form : LeaveRequestFormInput :=
  { leave_type := exLeaveType, start_date := 739100, end_date := 739101,
    start_day_type := "full_day", end_day_type := "full_day",
    start_time := none, end_time := none }

/-- Fixture: an existing pending request 2024-02-01 .. 2024-02-05
(ordinals 738917 .. 738921) of user 1. -/
def exC4_existing : LeaveRequest :=
  { exRequest with
    end_date := 738921
    total_days := 5
    working_days := 3 }

/-- Fixture: a new submission 2024-02-03 .. 2024-02-10 (ordinals 738919 ..
738926) overlapping `exC4_existing`. -/
def exC4_form : LeaveRequestFormInput :=
  { leave_type := exLeaveType, start_date := 738919, end_date := 738926,
    start_day_type := "full_day", end_day_type := "full_day",
    start_time := none, end_time := none }

/-- Fixture: a balance row with entitled 10, used 4, pending 0, carried 3. -/
def exC9_balance : LeaveBalance :=
  { user_id := 1, leave_type_id := 2, year := 2024, entitled_days := 10,
    used_days := 4, pending_days := 0, carried_over_days := 3 }

/-- Fixture: a reject decision carrying a comment. -/
def reject_input : ApprovalFormInput :=
  { status := "rejected", comments := "missing handover" }

/-- Fixture: a reject decision with empty comments. -/
def empty_reject_input : ApprovalFormInput :=
  { status := "rejected", comments := "" }

/-- The approval row as saved by the POST branch of `approval_action_view`
(lines 476-479): form fields copied, then signed. -/
def decided_approval (a : LeaveApproval) (input : ApprovalFormInput)
    (actor : User) (now : Nat) : LeaveApproval :=
  { a with
    status := input.status
    comments := input.comments
    signed_at := some now
    signed_by := some actor.id }

/-- The approval row as saved by the bulk loop (`leaves/views.py` lines
575-580): status takes the raw action literal, comments are kept only when
the action equals the literal `rejected`. -/
def bulk_decided_approval (a : LeaveApproval) (action comments : String)
    (actor : User) (now : Nat) : LeaveApproval :=
  { a with
    status := action
    comments := if action == "rejected" then comments else ""
    signed_at := some now
    signed_by := some actor.id }

/-- The request row saved on rejection (`leaves/views.py` lines 509-512). -/
def rejected_request (r : LeaveRequest) (now : Nat) : LeaveRequest :=
  { r with
    status := "rejected"
    rejected_at := some now }

/-- The request row saved on final approval (`leaves/views.py` lines
491-493). -/
def approved_request (r : LeaveRequest) (now : Nat) : LeaveRequest :=
  { r with
    status := "approved"
    approved_at := some now }

/-- Fixture: the database after `exOwner` submits `exC8_form` into
`exSt3`. -/
def exC10_submitted : St :=
  match leave_create_submit exSt3 exOwner exC8_form 739000 9 with
  | Except.ok (st, _) => st
  | Except.error _ => exSt3

/-- Fixture: request 1 already at approval level 3 (the final level). -/
def exC10_request : LeaveRequest :=
  { exRequest with current_approval_level := 3 }

/-- Fixture: `exSt` with request 1 at the final approval level. -/
def exC10_st : St := { exSt with requests := [exC10_request] }

/-- Fixture: the database after `exManager` submits one approve decision on
request 1 of `exSt`. -/
def exC3_after : St :=
  match approval_action exSt 1 exManager approve_input 1 with
  | Except.ok (st, _) => st
  | Except.error _ => exSt

/-- Fixture: an employee who belongs both to `exService` (managed by user
100) and to a department managed by user 200. -/
def exC3_owner : User :=
  { id := 1, role := "employee", is_approver := false,
    service := some exService,
    department := some { id := 4, manager_id := some 200 } }

/-- Fixture: the department manager of `exC3_owner`. -/
def exC3_deptManager : User :=
  { id := 200, role := "manager", is_approver := false,
    service := none, department := none }

/-- Fixture: request 1 owned by `exC3_owner`. -/
def exC3_request : LeaveRequest := { exRequest with user := exC3_owner }

/-- Fixture: a database where the level-1 approval of request 1 is assigned
to manager 100 while manager 200 also manages the owner. -/
def exC3_twoMgr_st : St := { exSt with requests := [exC3_request] }

/-- Helper: when a list contains a match of `p`, replacing every match by a
row `x` that itself matches makes `x` the first match. -/
theorem find?_map_replace {α : Type} (p : α → Bool) (x : α) (l : List α)
    (hx : p x = true) (h : (l.find? p).isSome) :
    (l.map (fun b => if p b then x else b)).find? p = some x := by
  induction l with
  | nil => simp [List.find?] at h
  | cons a t ih =>
    by_cases hpa : p a = true
    · simp only [List.map_cons, if_pos hpa]
      exact List.find?_cons_of_pos _ hx
    · rw [List.find?_cons_of_neg _ hpa] at h
      simp only [List.map_cons, if_neg hpa]
      rw [List.find?_cons_of_neg _ hpa]
      exact ih h

/-- Helper: when a list contains no match of `p`, the replacing map is the
identity. -/
theorem map_replace_of_find?_none {α : Type} (p : α → Bool) (x : α)
    (l : List α) (h : l.find? p = none) :
    l.map (fun b => if p b then x else b) = l := by
  have hall := List.find?_eq_none.mp h
  calc l.map (fun b => if p b then x else b)
      = l.map id := List.map_congr_left (fun a ha => by
        simp [hall a ha])
    _ = l := List.map_id l

/-- C6: for every leave request whose `total_days` was not explicitly
supplied (the column default `0`), the model `save` hook recomputes it as
the inclusive calendar-day count `(end_date - start_date).days + 1`, with no
business-day adjustment. -/
theorem C6_total_days_default (r : LeaveRequest) (h : r.total_days = 0) :
    r.model_save.total_days = ((r.end_date - r.start_date : Int) : Rat) + 1 := by
  unfold LeaveRequest.model_save
  rw [if_pos h]

/-- Witness for C6 at a concrete request. -/
theorem C6_total_days_default_witness :
    exC6_request.total_days = 0
    ∧ exC6_request.model_save.total_days
        = ((exC6_request.end_date - exC6_request.start_date : Int) : Rat) + 1 :=
  ⟨by decide, C6_total_days_default exC6_request (by decide)⟩

/-- C7: after any sequence of balance mutations performed by the repository
(administrative adjustments, bulk adjustments, approval-time debits), the
derived `remaining_days` read equals entitled + carried_over - used -
pending over the four stored counters of the resulting row; it is never a
stored column. -/
theorem C7_remaining_days_derived (b : LeaveBalance) (ops : List BalanceOp) :
    (apply_balance_ops b ops).remaining_days
      = (apply_balance_ops b ops).entitled_days
        + (apply_balance_ops b ops).carried_over_days
        - (apply_balance_ops b ops).used_days
        - (apply_balance_ops b ops).pending_days := rfl

/-- C8 counterexample: for a user whose service has no manager but whose
department has manager 7, the source routing yields no approver while the
service-manager-falling-back-to-department-manager resolution of the claim
yields manager 7. -/
theorem C8_routing_counterexample :
    default_approver exC8_user = none
    ∧ route_initial_approver_spec exC8_user = some 7
    ∧ default_approver exC8_user ≠ route_initial_approver_spec exC8_user := by
  decide

/-- C8 amended: on submission with a valid form, when the leave type
requires approval the view attempts to create exactly one level-1 approval
whose approver is the routed `default_approver` value (the service manager
when the user belongs to a service — with no fallback to the department
manager when that service has no manager — otherwise the department
manager when the user belongs to a department, otherwise none).  When a
manager is routed, exactly that one approval row is created; when the
routing yields none, the non-null `approver` FK makes the create raise
before any row is stored, so the submission errors and no approval record
exists.  When the leave type does not require approval, no approval record
is created. -/
theorem C8_initial_routing (st : St) (u : User) (f : LeaveRequestFormInput)
    (today : Int) (now : Nat)
    (hclean : leave_request_form_clean st.requests u.id none today f
        = Except.ok ())
    (hfresh : ∀ a ∈ st.approvals, a.leave_request_id ≠ st.next_request_id) :
    (∀ m, f.leave_type.requires_approval = true →
      default_approver u = some m →
      (leave_create_submit st u f today now).map (fun p => (p.1.approvals, p.2))
        = Except.ok (st.approvals ++
            [{ id := st.next_approval_id,
               leave_request_id := st.next_request_id,
               approver_id := some m, approval_level := 1,
               status := "pending", comments := "",
               signed_at := none, signed_by := none }], true))
    ∧ (f.leave_type.requires_approval = true →
      default_approver u = none →
      leave_create_submit st u f today now = Except.error "null approver")
    ∧ (f.leave_type.requires_approval = false →
      (leave_create_submit st u f today now).map (fun p => (p.1.approvals, p.2))
        = Except.ok (st.approvals, true)) := by
  have hnodup : (st.approvals.any (fun a =>
      a.leave_request_id == st.next_request_id && a.approval_level == 1))
        = false := by
    rw [List.any_eq_false]
    intro a ha
    simp only [Bool.and_eq_true, beq_iff_eq, not_and]
    intro hid
    exact absurd hid (hfresh a ha)
  refine ⟨?_, ?_, ?_⟩
  · intro m hreq happ
    simp [leave_create_submit, submitted_leave, create_approval, hclean,
      hreq, happ, hnodup]
    rfl
  · intro hreq happ
    simp [leave_create_submit, submitted_leave, create_approval, hclean,
      hreq, happ]
  · intro hreq
    simp [leave_create_submit, hclean, hreq]
    rfl

/-- Witness for C8 at two concrete submissions into `exSt3`: `exOwner`,
whose service is managed by user 100, and `exC8_user`, whose service has no
manager, so the routed approver is none and the create raises. -/
theorem C8_initial_routing_witness :
    leave_request_form_clean exSt3.requests exOwner.id none 739000 exC8_form
        = Except.ok ()
    ∧ default_approver exOwner = some 100
    ∧ (leave_create_submit exSt3 exOwner exC8_form 739000 9).map
        (fun p => (p.1.approvals, p.2))
      = Except.ok (exSt3.approvals ++
          [{ id := exSt3.next_approval_id,
             leave_request_id := exSt3.next_request_id,
             approver_id := some 100, approval_level := 1,
             status := "pending", comments := "",
             signed_at := none, signed_by := none }], true)
    ∧ default_approver exC8_user = none
    ∧ leave_create_submit exSt3 exC8_user exC8_form 739000 9
        = Except.error "null approver" :=
  ⟨rfl, rfl,
   (C8_initial_routing exSt3 exOwner exC8_form 739000 9 rfl
      (by decide)).1 100 (by decide) rfl,
   rfl,
   (C8_initial_routing exSt3 exC8_user exC8_form 739000 9 rfl
      (by decide)).2.1 (by decide) rfl⟩

/-- C4: submission is refused with a validation error whenever another
pending or approved request of the same user overlaps the new range under
the test existing.start <= new.end and existing.end >= new.start (excluding
the form instance when editing). -/
theorem C4_overlap_rejected (existing : List LeaveRequest) (user_id : Nat)
    (instance_id : Option Nat) (today : Int) (f : LeaveRequestFormInput)
    (h : ∃ r ∈ existing, r.user.id = user_id
        ∧ (r.status = "pending" ∨ r.status = "approved")
        ∧ r.start_date ≤ f.end_date ∧ r.end_date ≥ f.start_date
        ∧ (∀ i, instance_id = some i → r.id ≠ i)) :
    leave_request_form_clean existing user_id instance_id today f
      ≠ Except.ok () := by
  have hov : overlaps_existing existing user_id instance_id
      f.start_date f.end_date = true := by
    obtain ⟨r, hr, h1, h2, h3, h4, h5⟩ := h
    have h2b : (r.status == "pending" || r.status == "approved") = true := by
      rcases h2 with h2 | h2 <;> simp [h2]
    unfold overlaps_existing
    rw [List.any_eq_true]
    refine ⟨r, hr, ?_⟩
    cases instance_id with
    | none => simp [h1, h2b, h3, h4]
    | some i => simp [h1, h2b, h3, h4, h5 i rfl]
  intro hok
  unfold leave_request_form_clean at hok
  repeat' split at hok <;> simp_all

/-- Witness for C4 at the concrete scenario of the claim: existing pending
request 2024-02-01..2024-02-05, new request 2024-02-03..2024-02-10, same
user. -/
theorem C4_overlap_rejected_witness :
    (∃ r ∈ [exC4_existing], r.user.id = 1
        ∧ (r.status = "pending" ∨ r.status = "approved")
        ∧ r.start_date ≤ exC4_form.end_date
        ∧ r.end_date ≥ exC4_form.start_date
        ∧ (∀ i, (none : Option Nat) = some i → r.id ≠ i))
    ∧ leave_request_form_clean [exC4_existing] 1 none 738910 exC4_form
        ≠ Except.ok () :=
  ⟨by decide, C4_overlap_rejected [exC4_existing] 1 none 738910 exC4_form
      (by decide)⟩


/-- C9 counterexample: the bulk adjustment view performs no validation on
its amount, so a set adjustment with a negative amount drives
`entitled_days` to -5 on a fresh balance, violating non-negativity. -/
theorem C9_non_negative_counterexample :
    ¬ BalanceNonNeg
        (apply_bulk_adjustment "set_entitled" (-5) (fresh_balance 1 2 2024))
    ∧ (apply_bulk_adjustment "set_entitled" (-5)
        (fresh_balance 1 2 2024)).entitled_days = -5 := by
  constructor
  · decide
  · decide

/-- C9 amended: get-or-create defaults, the approval-time debit (whose
amount is a working-day count, hence non-negative) and the adjustment
dispatches preserve non-negativity of all four counters whenever the amount
is non-negative — which the single-adjustment form enforces through its
min_value=0 field but the bulk view does not validate; subtract adjustments
clamp at zero via `max(0, value - amount)` and set adjustments assign the
amount directly. -/
theorem C9_balance_non_negative (b : LeaveBalance) (t : String)
    (amount w : Rat) (hb : BalanceNonNeg b) (hamt : 0 ≤ amount)
    (hw : 0 ≤ w) :
    BalanceNonNeg (apply_adjustment t amount b)
    ∧ BalanceNonNeg (apply_bulk_adjustment t amount b)
    ∧ BalanceNonNeg (debit_balance b w)
    ∧ (∀ uid tid year, BalanceNonNeg (fresh_balance uid tid year))
    ∧ (apply_adjustment "subtract_entitled" amount b).entitled_days
        = max 0 (b.entitled_days - amount)
    ∧ (apply_adjustment "subtract_used" amount b).used_days
        = max 0 (b.used_days - amount)
    ∧ (apply_adjustment "subtract_carried" amount b).carried_over_days
        = max 0 (b.carried_over_days - amount)
    ∧ (apply_adjustment "set_entitled" amount b).entitled_days = amount
    ∧ (apply_adjustment "set_used" amount b).used_days = amount
    ∧ (apply_adjustment "set_carried" amount b).carried_over_days = amount := by
  obtain ⟨h1, h2, h3, h4⟩ := hb
  refine ⟨?_, ?_, ⟨h1, add_nonneg h2 hw, h3, h4⟩,
    fun uid tid year => ⟨le_refl 0, le_refl 0, le_refl 0, le_refl 0⟩,
    rfl, rfl, rfl, rfl, rfl, rfl⟩
  · unfold apply_adjustment BalanceNonNeg
    split_ifs <;>
      exact ⟨by positivity, by positivity, by positivity, by positivity⟩
  · unfold apply_bulk_adjustment BalanceNonNeg
    split_ifs <;>
      exact ⟨by positivity, by positivity, by positivity, by positivity⟩

/-- Witness for C9 at the concrete instance of the claim: a balance with
used_days 4 under a subtract of 10, which clamps at 0. -/
theorem C9_balance_non_negative_witness :
    BalanceNonNeg exC9_balance ∧ (0 : Rat) ≤ 10 ∧ (0 : Rat) ≤ 5
    ∧ (BalanceNonNeg (apply_adjustment "subtract_used" 10 exC9_balance)
      ∧ BalanceNonNeg (apply_bulk_adjustment "subtract_used" 10 exC9_balance)
      ∧ BalanceNonNeg (debit_balance exC9_balance 5)
      ∧ (∀ uid tid year, BalanceNonNeg (fresh_balance uid tid year))
      ∧ (apply_adjustment "subtract_entitled" 10 exC9_balance).entitled_days
          = max 0 (exC9_balance.entitled_days - 10)
      ∧ (apply_adjustment "subtract_used" 10 exC9_balance).used_days
          = max 0 (exC9_balance.used_days - 10)
      ∧ (apply_adjustment "subtract_carried" 10 exC9_balance).carried_over_days
          = max 0 (exC9_balance.carried_over_days - 10)
      ∧ (apply_adjustment "set_entitled" 10 exC9_balance).entitled_days = 10
      ∧ (apply_adjustment "set_used" 10 exC9_balance).used_days = 10
      ∧ (apply_adjustment "set_carried" 10 exC9_balance).carried_over_days = 10)
    ∧ (apply_adjustment "subtract_used" 10 exC9_balance).used_days = 0 := by
  refine ⟨by decide, by norm_num, by norm_num,
    C9_balance_non_negative exC9_balance "subtract_used" 10 5
      (by decide) (by norm_num) (by norm_num), ?_⟩
  simp [apply_adjustment, exC9_balance]
  norm_num

theorem get_or_create_approval_state (st : St) (lid aid lvl : Nat)
    (a : LeaveApproval) (st1 : St) (c : Bool)
    (h : get_or_create_approval st lid aid lvl = Except.ok (a, st1, c)) :
    st1.requests = st.requests ∧ st1.balances = st.balances
      ∧ a ∈ st1.approvals := by
  unfold get_or_create_approval at h
  split at h
  · rename_i b hb
    injection h with h
    injection h with h1 h2
    injection h2 with h2 h3
    subst h1; subst h2
    exact ⟨rfl, rfl, List.mem_of_find?_eq_some hb⟩
  · split at h
    · exact absurd h (by simp)
    · injection h with h
      injection h with h1 h2
      injection h2 with h2 h3
      subst h1; subst h2
      refine ⟨rfl, rfl, ?_⟩
      simp

theorem approval_action_resolve_state (st : St) (leave : LeaveRequest)
    (actor : User) (a : LeaveApproval) (st1 : St)
    (h : approval_action_resolve st leave actor
        = Except.ok (some a, st1)) :
    st1.requests = st.requests ∧ st1.balances = st.balances
      ∧ a ∈ st1.approvals := by
  unfold approval_action_resolve at h
  split at h
  · rename_i b hb
    injection h with h
    injection h with h1 h2
    injection h1 with h1
    subst h1; subst h2
    exact ⟨rfl, rfl, List.mem_of_find?_eq_some hb⟩
  · split at h
    · split at h
      · rename_i b st2 c hg
        injection h with h
        injection h with h1 h2
        injection h1 with h1
        subst h1
        subst h2
        exact get_or_create_approval_state st leave.id actor.id 1 _ _ c hg
      · exact absurd h (by simp)
    · injection h with h
      injection h with h1 h2
      exact absurd h1 (by simp)

theorem approval_action_reject_spec (st : St) (leave_id : Nat) (actor : User)
    (input : ApprovalFormInput) (now : Nat) (leave : LeaveRequest)
    (approval : LeaveApproval) (st1 : St)
    (hfind : find_request st leave_id = some leave)
    (hres : approval_action_resolve st leave actor
        = Except.ok (some approval, st1))
    (hstat : input.status = "rejected") (hcom : input.comments ≠ "") :
    ∃ st2, approval_action st leave_id actor input now
        = Except.ok (st2, ActionResult.redirected)
      ∧ find_request st2 leave_id = some (rejected_request leave now)
      ∧ st2.approvals.length = st1.approvals.length
      ∧ st2.balances = st.balances
      ∧ decided_approval approval input actor now ∈ st2.approvals := by
  obtain ⟨hreq1, hbal1, hmem⟩ :=
    approval_action_resolve_state st leave actor approval st1 hres
  have hvalid : approval_form_is_valid input = true := by
    simp [approval_form_is_valid, hstat, hcom]
  have hid : leave.id = leave_id := by
    unfold find_request at hfind
    simpa using List.find?_some hfind
  refine ⟨save_request
      (save_approval st1 (decided_approval approval input actor now))
      (rejected_request leave now), ?_, ?_, ?_, ?_, ?_⟩
  · simp only [approval_action, hfind, hres]
    simp [hvalid, hstat, decided_approval, rejected_request]
  · have hrq : (save_request
        (save_approval st1 (decided_approval approval input actor now))
        (rejected_request leave now)).requests
      = st.requests.map (fun b => if b.id == leave_id then
          rejected_request leave now else b) := by
      simp [save_request, save_approval, hreq1, rejected_request, hid]
    unfold find_request
    rw [hrq]
    apply find?_map_replace
    · simp [rejected_request, hid]
    · unfold find_request at hfind
      rw [hfind]
      rfl
  · simp [save_request, save_approval]
  · simp [save_request, save_approval, hbal1]
  · simp only [save_request, save_approval]
    exact List.mem_map.mpr ⟨approval, hmem, by simp [decided_approval]⟩

theorem approval_action_final_approve_spec (st : St) (leave_id : Nat)
    (actor : User) (input : ApprovalFormInput) (now : Nat)
    (leave : LeaveRequest) (approval : LeaveApproval) (st1 : St)
    (hfind : find_request st leave_id = some leave)
    (hres : approval_action_resolve st leave actor
        = Except.ok (some approval, st1))
    (hstat : input.status = "approved")
    (hlvl : ¬ leave.current_approval_level < 3)
    (hded : leave.leave_type.deduct_from_balance = true) :
    ∃ st2, approval_action st leave_id actor input now
        = Except.ok (st2, ActionResult.redirected)
      ∧ find_request st2 leave_id = some (approved_request leave now)
      ∧ st2.approvals.length = st1.approvals.length
      ∧ balance_used st2 leave.user.id leave.leave_type.id
          (date_year leave.start_date)
        = balance_used st leave.user.id leave.leave_type.id
            (date_year leave.start_date) + leave.working_days := by
  obtain ⟨hreq1, hbal1, hmem⟩ :=
    approval_action_resolve_state st leave actor approval st1 hres
  have hvalid : approval_form_is_valid input = true := by
    simp [approval_form_is_valid, hstat]
  have hid : leave.id = leave_id := by
    unfold find_request at hfind
    simpa using List.find?_some hfind
  rcases hb : st.balances.find? (fun b =>
      b.user_id == leave.user.id && b.leave_type_id == leave.leave_type.id
        && b.year == date_year leave.start_date) with _ | b
  · -- no balance row yet: a fresh one is created and debited
    refine ⟨save_balance
        { save_request (save_approval st1
            (decided_approval approval input actor now))
            (approved_request leave now) with
          balances := st.balances ++ [fresh_balance leave.user.id
            leave.leave_type.id (date_year leave.start_date)] }
        (debit_balance (fresh_balance leave.user.id leave.leave_type.id
          (date_year leave.start_date)) leave.working_days),
      ?_, ?_, ?_, ?_⟩
    · simp only [approval_action, hfind, hres]
      simp [hvalid, hstat, hlvl, hded, get_or_create_balance,
        save_approval, save_request, hbal1, hb, decided_approval,
        approved_request, debit_balance, fresh_balance]
    · have hrq : (save_balance
          { save_request (save_approval st1
              (decided_approval approval input actor now))
              (approved_request leave now) with
            balances := st.balances ++ [fresh_balance leave.user.id
              leave.leave_type.id (date_year leave.start_date)] }
          (debit_balance (fresh_balance leave.user.id leave.leave_type.id
            (date_year leave.start_date)) leave.working_days)).requests
        = st.requests.map (fun c => if c.id == leave_id then
            approved_request leave now else c) := by
        simp [save_balance, save_request, save_approval, hreq1,
          approved_request, hid]
      unfold find_request
      rw [hrq]
      apply find?_map_replace
      · simp [approved_request, hid]
      · unfold find_request at hfind
        rw [hfind]
        rfl
    · simp [save_balance, save_request, save_approval]
    · unfold balance_used find_balance
      rw [hb]
      have hbl : (save_balance
          { save_request (save_approval st1
              (decided_approval approval input actor now))
              (approved_request leave now) with
            balances := st.balances ++ [fresh_balance leave.user.id
              leave.leave_type.id (date_year leave.start_date)] }
          (debit_balance (fresh_balance leave.user.id leave.leave_type.id
            (date_year leave.start_date)) leave.working_days)).balances
        = (st.balances ++ [fresh_balance leave.user.id
            leave.leave_type.id (date_year leave.start_date)]).map
            (fun c => if c.user_id == leave.user.id
                && c.leave_type_id == leave.leave_type.id
                && c.year == date_year leave.start_date then
              debit_balance (fresh_balance leave.user.id leave.leave_type.id
                (date_year leave.start_date)) leave.working_days else c) := by
        simp [save_balance, debit_balance, fresh_balance]
      rw [hbl, List.map_append,
        map_replace_of_find?_none _ _ _ hb]
      rw [List.find?_append, hb]
      simp [debit_balance, fresh_balance]
  · -- existing balance row: it is debited in place
    have hkey := List.find?_some hb
    simp only [Bool.and_eq_true, beq_iff_eq] at hkey
    obtain ⟨⟨hbu, hbt⟩, hby⟩ := hkey
    refine ⟨save_balance (save_request (save_approval st1
        (decided_approval approval input actor now))
        (approved_request leave now))
        (debit_balance b leave.working_days),
      ?_, ?_, ?_, ?_⟩
    · simp only [approval_action, hfind, hres]
      simp [hvalid, hstat, hlvl, hded, get_or_create_balance,
        save_approval, save_request, hbal1, hb, decided_approval,
        approved_request, debit_balance]
    · have hrq : (save_balance (save_request (save_approval st1
          (decided_approval approval input actor now))
          (approved_request leave now))
          (debit_balance b leave.working_days)).requests
        = st.requests.map (fun c => if c.id == leave_id then
            approved_request leave now else c) := by
        simp [save_balance, save_request, save_approval, hreq1,
          approved_request, hid]
      unfold find_request
      rw [hrq]
      apply find?_map_replace
      · simp [approved_request, hid]
      · unfold find_request at hfind
        rw [hfind]
        rfl
    · simp [save_balance, save_request, save_approval]
    · unfold balance_used find_balance
      rw [hb]
      have hbl : (save_balance (save_request (save_approval st1
          (decided_approval approval input actor now))
          (approved_request leave now))
          (debit_balance b leave.working_days)).balances
        = st.balances.map
            (fun c => if c.user_id == leave.user.id
                && c.leave_type_id == leave.leave_type.id
                && c.year == date_year leave.start_date then
              debit_balance b leave.working_days else c) := by
        simp [save_balance, save_request, save_approval, hbal1,
          debit_balance, hbu, hbt, hby]
      rw [hbl]
      rw [find?_map_replace _ _ _ (by simp [debit_balance, hbu, hbt, hby])
        (by rw [hb]; rfl)]
      simp [debit_balance]

/-- C1 amended: resolving a pending approval and rejecting finalizes the
request as rejected (rejected_at set) without creating any further approval
row and without touching balances; approving at the final level (ceiling 3)
finalizes the request as approved and debits the owners balance for the
start-date year by working_days exactly once in that processing; and an
actor for whom no approval resolves is refused with the state unchanged.
The original never-debits-twice guarantee does not hold for repeated
processing: the view has no guard on the request status, so a direct
manager can re-process an already approved request and debit again (see the
counterexample). -/
theorem C1_decision_finalization (st : St) (leave_id : Nat) (actor : User)
    (input : ApprovalFormInput) (now : Nat) (leave : LeaveRequest)
    (hfind : find_request st leave_id = some leave) :
    (∀ approval st1,
      approval_action_resolve st leave actor
          = Except.ok (some approval, st1) →
      input.status = "rejected" → input.comments ≠ "" →
      ∃ st2, approval_action st leave_id actor input now
          = Except.ok (st2, ActionResult.redirected)
        ∧ find_request st2 leave_id = some (rejected_request leave now)
        ∧ st2.approvals.length = st1.approvals.length
        ∧ st2.balances = st.balances)
    ∧ (∀ approval st1,
      approval_action_resolve st leave actor
          = Except.ok (some approval, st1) →
      input.status = "approved" → ¬ leave.current_approval_level < 3 →
      leave.leave_type.deduct_from_balance = true →
      ∃ st2, approval_action st leave_id actor input now
          = Except.ok (st2, ActionResult.redirected)
        ∧ find_request st2 leave_id = some (approved_request leave now)
        ∧ balance_used st2 leave.user.id leave.leave_type.id
            (date_year leave.start_date)
          = balance_used st leave.user.id leave.leave_type.id
              (date_year leave.start_date) + leave.working_days)
    ∧ (approval_action_resolve st leave actor = Except.ok (none, st) →
      approval_action st leave_id actor input now
        = Except.ok (st, ActionResult.not_allowed)) := by
  refine ⟨?_, ?_, ?_⟩
  · intro approval st1 hres hstat hcom
    obtain ⟨st2, h1, h2, h3, h4, _⟩ :=
      approval_action_reject_spec st leave_id actor input now leave
        approval st1 hfind hres hstat hcom
    exact ⟨st2, h1, h2, h3, h4⟩
  · intro approval st1 hres hstat hlvl hded
    obtain ⟨st2, h1, h2, _, h4⟩ :=
      approval_action_final_approve_spec st leave_id actor input now leave
        approval st1 hfind hres hstat hlvl hded
    exact ⟨st2, h1, h2, h4⟩
  · intro hres
    simp only [approval_action, hfind, hres]

/-- Witness for C1: the assigned approver rejects request 1 of `exSt` with a
comment. -/
theorem C1_decision_finalization_witness :
    find_request exSt 1 = some exRequest
    ∧ (∃ st2, approval_action exSt 1 exManager reject_input 4
        = Except.ok (st2, ActionResult.redirected)
      ∧ find_request st2 1 = some (rejected_request exRequest 4)
      ∧ st2.approvals.length = exSt.approvals.length
      ∧ st2.balances = exSt.balances) :=
  ⟨rfl,
   (C1_decision_finalization exSt 1 exManager reject_input 4 exRequest
      rfl).1 exApproval exSt rfl rfl (by decide)⟩

/-- C1 counterexample to the never-debits-twice clause: the service manager
keeps re-submitting the same approve decision on request 1 (working_days 5,
deduct_from_balance true).  The first two submissions raise the level to 3,
the third finalizes and debits 5 days, and a fourth submission of the very
same decision debits again, leaving used_days at 10 even though the request
was already approved. -/
theorem C1_repeated_processing_counterexample :
    ((exC1_chain 3).bind (fun st =>
        (find_balance st 1 2 2024).map LeaveBalance.used_days) = some 5)
    ∧ ((exC1_chain 3).bind (fun st =>
        (find_request st 1).map LeaveRequest.status) = some "approved")
    ∧ ((exC1_chain 4).bind (fun st =>
        (find_balance st 1 2 2024).map LeaveBalance.used_days) = some 10)
    ∧ exRequest.working_days = 5 := by
  refine ⟨?_, ?_, ?_, ?_⟩ <;> with_unfolding_all rfl

/-- C5 amended: in the single-approval path, rejecting with empty comments
is refused by form validation (the request is not finalized), and a
successful rejection stores the comment on the signed approval row; the
bulk path, by contrast, does not enforce any comment (see the
counterexample). -/
theorem C5_reject_requires_comment (st : St) (leave_id : Nat) (actor : User)
    (input : ApprovalFormInput) (now : Nat) (leave : LeaveRequest)
    (approval : LeaveApproval) (st1 : St)
    (hfind : find_request st leave_id = some leave)
    (hres : approval_action_resolve st leave actor
        = Except.ok (some approval, st1))
    (hstat : input.status = "rejected") :
    (input.comments = "" →
      approval_form_is_valid input = false
      ∧ approval_action st leave_id actor input now
          = Except.ok (st1, ActionResult.invalid_form)
      ∧ st1.requests = st.requests)
    ∧ (input.comments ≠ "" →
      ∃ st2, approval_action st leave_id actor input now
          = Except.ok (st2, ActionResult.redirected)
        ∧ find_request st2 leave_id = some (rejected_request leave now)
        ∧ decided_approval approval input actor now ∈ st2.approvals) := by
  constructor
  · intro hcom
    have hinvalid : approval_form_is_valid input = false := by
      simp [approval_form_is_valid, hstat, hcom]
    refine ⟨hinvalid, ?_, ?_⟩
    · simp only [approval_action, hfind, hres]
      simp [hinvalid]
    · exact (approval_action_resolve_state st leave actor approval st1
        hres).1
  · intro hcom
    obtain ⟨st2, h1, h2, _, _, h5⟩ :=
      approval_action_reject_spec st leave_id actor input now leave
        approval st1 hfind hres hstat hcom
    exact ⟨st2, h1, h2, h5⟩

/-- Witness for C5: rejecting request 1 of `exSt` with empty comments is
refused as invalid. -/
theorem C5_reject_requires_comment_witness :
    find_request exSt 1 = some exRequest
    ∧ (approval_form_is_valid empty_reject_input = false
      ∧ approval_action exSt 1 exManager empty_reject_input 4
          = Except.ok (exSt, ActionResult.invalid_form)
      ∧ exSt.requests = exSt.requests) :=
  ⟨rfl,
   (C5_reject_requires_comment exSt 1 exManager empty_reject_input 4
      exRequest exApproval exSt rfl rfl rfl).1 rfl⟩

/-- C5 counterexample: the bulk path finalizes a rejection with empty
comments and no validation error — the form accepts the submission, the
request ends rejected, and the signed approval row carries status `reject`
(the raw action literal) with empty comments. -/
theorem C5_bulk_reject_empty_comment_counterexample :
    (bulk_approval exSt exManager
        { leave_request_ids := [1], action := "reject", comments := "" } 7).map
      (fun p => ((find_request p.1 1).map LeaveRequest.status,
        p.1.approvals.map (fun a => (a.status, a.comments)), p.2.1, p.2.2))
    = Except.ok (some "rejected", [("reject", "")], 1, true) := rfl

/-- C2: the bulk view never takes its approve branch because the form
submits the literal `approve` while the view compares against `approved`,
so bulk-approving an authorized pending request finalizes it as rejected
with no balance debit; and the form validates the selected ids
all-or-nothing, so bulk-approving requests 1, 2, 3 of `exSt3` — of which
request 3 carries no approval assigned to the actor — is refused as a whole
and processes none of them instead of approving the other two. -/
theorem C2_bulk_outcomes :
    ((bulk_approval exSt exManager
        { leave_request_ids := [1], action := "approve", comments := "" } 5).map
      (fun p => ((find_request p.1 1).map LeaveRequest.status,
        p.1.balances.length, p.2.1, p.2.2))
      = Except.ok (some "rejected", 0, 1, true))
    ∧ (bulk_approval exSt3 exManager
        { leave_request_ids := [1, 2, 3], action := "approve", comments := "" } 5
      = Except.ok (exSt3, 0, false)) := ⟨rfl, rfl⟩

theorem calculate_working_days_eq_card (s e : Int) :
    calculate_working_days s e
      = ((Finset.Icc s e).filter (fun d => weekday d < 5)).card := by
  have h1 : calculate_working_days s e
      = ((Finset.range (e - s + 1).toNat).filter
          (fun (i : Nat) => weekday (s + (i : Int)) < 5)).card := by
    rw [Finset.card, Finset.filter_val, Finset.range_val]
    rw [show Multiset.range (e - s + 1).toNat
        = ((List.range (e - s + 1).toNat : List Nat) : Multiset Nat) from rfl]
    rw [Multiset.filter_coe, Multiset.coe_card]
    rfl
  rw [h1]
  apply Finset.card_bij' (fun (a : Nat) _ => s + (a : Int))
    (fun (d : Int) _ => (d - s).toNat)
  · intro a ha
    simp only [Finset.mem_filter, Finset.mem_range] at ha
    simp only [Finset.mem_filter, Finset.mem_Icc]
    refine ⟨⟨?_, ?_⟩, ha.2⟩ <;> omega
  · intro d hd
    simp only [Finset.mem_filter, Finset.mem_Icc] at hd
    simp only [Finset.mem_filter, Finset.mem_range]
    have hds : s + (((d - s).toNat : Nat) : Int) = d := by omega
    constructor
    · omega
    · rw [hds]
      exact hd.2
  · intro a ha
    omega
  · intro d hd
    simp only [Finset.mem_filter, Finset.mem_Icc] at hd
    omega

theorem model_save_fields (r : LeaveRequest) :
    r.model_save.working_days = r.working_days
    ∧ r.model_save.id = r.id
    ∧ r.model_save.start_date = r.start_date
    ∧ r.model_save.end_date = r.end_date := by
  unfold LeaveRequest.model_save
  split <;> exact ⟨rfl, rfl, rfl, rfl⟩

theorem create_approval_requests_eq (st : St) (lid : Nat) (ap : Option Nat)
    (lvl : Nat) (st2 : St)
    (h : create_approval st lid ap lvl = Except.ok st2) :
    st2.requests = st.requests := by
  unfold create_approval at h
  split at h
  · exact absurd h (by simp)
  · split at h
    · exact absurd h (by simp)
    · injection h with h
      subst h
      rfl

theorem leave_create_submit_stores (st : St) (u : User)
    (f : LeaveRequestFormInput) (today : Int) (now : Nat) (st2 : St)
    (hsub : leave_create_submit st u f today now = Except.ok (st2, true))
    (hnodup : ∀ r ∈ st.requests, r.id ≠ st.next_request_id) :
    find_request st2 st.next_request_id
      = some (submitted_leave st u f now).model_save := by
  have hfindbase : (st.requests
        ++ [(submitted_leave st u f now).model_save]).find?
      (fun r => r.id == st.next_request_id)
      = some (submitted_leave st u f now).model_save := by
    rw [List.find?_append]
    have hnone : st.requests.find? (fun r => r.id == st.next_request_id)
        = none := by
      rw [List.find?_eq_none]
      intro r hr
      simp [hnodup r hr]
    rw [hnone]
    have hx : (submitted_leave st u f now).model_save.id
        = st.next_request_id := (model_save_fields _).2.1
    simp [List.find?, hx]
  unfold leave_create_submit at hsub
  split at hsub
  · exact absurd hsub (by simp)
  · by_cases hreq : f.leave_type.requires_approval = true
    · rw [if_pos hreq] at hsub
      split at hsub
      · exact absurd hsub (by simp)
      · rename_i st3 hcr
        injection hsub with hsub
        injection hsub with hsub hx
        subst hsub
        unfold find_request
        rw [create_approval_requests_eq _ _ _ _ _ hcr]
        exact hfindbase
    · rw [if_neg hreq] at hsub
      injection hsub with hsub
      injection hsub with hsub hx
      subst hsub
      unfold find_request
      exact hfindbase

/-- C10: the working-day count stored at submission is the number of
Monday-to-Friday dates in the inclusive range (no holiday exclusion); the
submitted row carries working_days = calculate_working_days(start, end) and
total_days = (end - start).days + 1; and on final approval of a deducting
leave type, used_days increases by exactly the request working_days — not
by total_days. -/
theorem C10_debit_by_working_days (st : St) (u : User)
    (f : LeaveRequestFormInput) (today : Int) (now : Nat) (st2 : St)
    (stq : St) (leave_id : Nat) (actor : User) (input : ApprovalFormInput)
    (now2 : Nat) (leave : LeaveRequest) (approval : LeaveApproval)
    (st1 : St) :
    (∀ s e, calculate_working_days s e
        = ((Finset.Icc s e).filter (fun d => weekday d < 5)).card)
    ∧ (leave_create_submit st u f today now = Except.ok (st2, true) →
      (∀ r ∈ st.requests, r.id ≠ st.next_request_id) →
      find_request st2 st.next_request_id
          = some (submitted_leave st u f now).model_save
        ∧ (submitted_leave st u f now).model_save.working_days
            = (calculate_working_days f.start_date f.end_date : Rat)
        ∧ (submitted_leave st u f now).model_save.total_days
            = ((f.end_date - f.start_date : Int) : Rat) + 1)
    ∧ (find_request stq leave_id = some leave →
      approval_action_resolve stq leave actor
          = Except.ok (some approval, st1) →
      input.status = "approved" → ¬ leave.current_approval_level < 3 →
      leave.leave_type.deduct_from_balance = true →
      ∃ stf, approval_action stq leave_id actor input now2
          = Except.ok (stf, ActionResult.redirected)
        ∧ balance_used stf leave.user.id leave.leave_type.id
            (date_year leave.start_date)
          = balance_used stq leave.user.id leave.leave_type.id
              (date_year leave.start_date) + leave.working_days) := by
  refine ⟨calculate_working_days_eq_card, ?_, ?_⟩
  · intro hsub hnodup
    refine ⟨leave_create_submit_stores st u f today now st2 hsub hnodup,
      (model_save_fields _).1, ?_⟩
    unfold LeaveRequest.model_save submitted_leave
    split
    · rfl
    · rfl
  · intro hfind hres hstat hlvl hded
    obtain ⟨stf, h1, _, _, h4⟩ :=
      approval_action_final_approve_spec stq leave_id actor input now2
        leave approval st1 hfind hres hstat hlvl hded
    exact ⟨stf, h1, h4⟩

/-- Witness for C10: the concrete submission of `exC8_form` and the final
approval of request 1 at level 3 in `exC10_st`. -/
theorem C10_debit_by_working_days_witness :
    (leave_create_submit exSt3 exOwner exC8_form 739000 9
        = Except.ok (exC10_submitted, true))
    ∧ (∀ r ∈ exSt3.requests, r.id ≠ exSt3.next_request_id)
    ∧ (find_request exC10_submitted exSt3.next_request_id
          = some (submitted_leave exSt3 exOwner exC8_form 9).model_save
        ∧ (submitted_leave exSt3 exOwner exC8_form 9).model_save.working_days
            = (calculate_working_days exC8_form.start_date
                exC8_form.end_date : Rat)
        ∧ (submitted_leave exSt3 exOwner exC8_form 9).model_save.total_days
            = ((exC8_form.end_date - exC8_form.start_date : Int) : Rat) + 1)
    ∧ find_request exC10_st 1 = some exC10_request
    ∧ (∃ stf, approval_action exC10_st 1 exManager approve_input 4
          = Except.ok (stf, ActionResult.redirected)
        ∧ balance_used stf exC10_request.user.id
            exC10_request.leave_type.id (date_year exC10_request.start_date)
          = balance_used exC10_st exC10_request.user.id
              exC10_request.leave_type.id
              (date_year exC10_request.start_date)
            + exC10_request.working_days) :=
  ⟨by with_unfolding_all rfl,
   by decide,
   (C10_debit_by_working_days exSt3 exOwner exC8_form 739000 9
      exC10_submitted exC10_st 1 exManager approve_input 4 exC10_request
      exApproval exC10_st).2.1 (by with_unfolding_all rfl) (by decide),
   rfl,
   (C10_debit_by_working_days exSt3 exOwner exC8_form 739000 9
      exC10_submitted exC10_st 1 exManager approve_input 4 exC10_request
      exApproval exC10_st).2.2 rfl rfl rfl (by decide) rfl⟩

theorem approvals_ok_map_replace (l : List LeaveApproval)
    (x a0 : LeaveApproval) (hok : ApprovalsOk l) (hmem : a0 ∈ l)
    (hid : x.id = a0.id) (hkey : approval_key x = approval_key a0) :
    ApprovalsOk (l.map (fun b => if b.id == x.id then x else b)) := by
  unfold ApprovalsOk at *
  induction l with
  | nil => exact List.Pairwise.nil
  | cons h t ih =>
    rw [List.pairwise_cons] at hok
    obtain ⟨hR, ht⟩ := hok
    rcases List.mem_cons.mp hmem with heq | hmem2
    · subst heq
      have hfh : (if a0.id == x.id then x else a0) = x := by simp [hid]
      have htmap : t.map (fun b => if b.id == x.id then x else b) = t := by
        have hpt : ∀ b ∈ t, (if b.id == x.id then x else b) = b := by
          intro b hb
          rw [if_neg]
          simp only [beq_iff_eq, hid]
          exact fun e => (hR b hb).1 e.symm
        calc t.map (fun b => if b.id == x.id then x else b)
            = t.map id := List.map_congr_left hpt
          _ = t := List.map_id t
      rw [List.map_cons, hfh, htmap, List.pairwise_cons]
      refine ⟨?_, ht⟩
      intro b hb
      exact ⟨hid ▸ (hR b hb).1, hkey ▸ (hR b hb).2⟩
    · have hhx : ¬ (h.id == x.id) = true := by
        simp only [beq_iff_eq, hid]
        exact fun e => (hR a0 hmem2).1 e
      rw [List.map_cons, if_neg hhx, List.pairwise_cons]
      constructor
      · intro b2 hb2
        obtain ⟨b, hb, hbe⟩ := List.mem_map.mp hb2
        subst hbe
        by_cases hbx : (b.id == x.id) = true
        · rw [if_pos hbx]
          refine ⟨?_, ?_⟩
          · rw [hid]
            exact (hR a0 hmem2).1
          · rw [hkey]
            exact (hR a0 hmem2).2
        · rw [if_neg hbx]
          exact hR b hb
      · exact ih ht hmem2

theorem StOk_of_approvals_eq (s1 s2 : St)
    (hap : s2.approvals = s1.approvals)
    (hct : s2.next_approval_id = s1.next_approval_id)
    (h : StOk s1) : StOk s2 := by
  obtain ⟨h1, h2⟩ := h
  constructor
  · unfold ApprovalsOk at *
    rw [hap]
    exact h1
  · rw [hap, hct]
    exact h2

theorem save_approval_StOk (st : St) (x a0 : LeaveApproval)
    (hok : StOk st) (hmem : a0 ∈ st.approvals)
    (hid : x.id = a0.id) (hkey : approval_key x = approval_key a0) :
    StOk (save_approval st x) := by
  obtain ⟨hpair, hbound⟩ := hok
  constructor
  · exact approvals_ok_map_replace st.approvals x a0 hpair hmem hid hkey
  · intro b hb
    obtain ⟨a, ha, hae⟩ := List.mem_map.mp hb
    subst hae
    by_cases hax : (a.id == x.id) = true
    · rw [if_pos hax]
      rw [hid]
      exact hbound a0 hmem
    · rw [if_neg hax]
      exact hbound a ha

theorem create_approval_StOk (st : St) (lid : Nat) (ap : Option Nat)
    (lvl : Nat) (st2 : St) (hok : StOk st)
    (h : create_approval st lid ap lvl = Except.ok st2) :
    StOk st2 := by
  obtain ⟨hpair, hbound⟩ := hok
  unfold create_approval at h
  split at h
  · exact absurd h (by simp)
  · split at h
    · exact absurd h (by simp)
    · rename_i hdup
      rw [List.any_eq_true] at hdup
      push_neg at hdup
      injection h with h
      subst h
      constructor
      · unfold ApprovalsOk at *
        rw [List.pairwise_append]
        refine ⟨hpair, List.pairwise_singleton _ _, ?_⟩
        intro a ha b hb
        rw [List.mem_singleton] at hb
        subst hb
        constructor
        · exact Nat.ne_of_lt (hbound a ha)
        · intro e
          apply hdup a ha
          unfold approval_key at e
          have e1 : a.leave_request_id = lid := congrArg Prod.fst e
          have e2 : a.approval_level = lvl := congrArg Prod.snd e
          simp [e1, e2]
      · intro a ha
        rcases List.mem_append.mp ha with h1 | h1
        · exact Nat.lt_succ_of_lt (hbound a h1)
        · rw [List.mem_singleton] at h1
          subst h1
          exact Nat.lt_succ_self _

theorem get_or_create_approval_StOk (st : St) (lid aid lvl : Nat)
    (a : LeaveApproval) (st2 : St) (c : Bool) (hok : StOk st)
    (h : get_or_create_approval st lid aid lvl = Except.ok (a, st2, c)) :
    StOk st2 := by
  unfold get_or_create_approval at h
  split at h
  · injection h with h
    injection h with h1 h2
    injection h2 with h2 h3
    subst h2
    exact hok
  · split at h
    · exact absurd h (by simp)
    · rename_i hdup
      rw [List.any_eq_true] at hdup
      push_neg at hdup
      injection h with h
      injection h with h1 h2
      injection h2 with h2 h3
      subst h2
      obtain ⟨hpair, hbound⟩ := hok
      constructor
      · unfold ApprovalsOk at *
        rw [List.pairwise_append]
        refine ⟨hpair, List.pairwise_singleton _ _, ?_⟩
        intro b hb x hx
        rw [List.mem_singleton] at hx
        subst hx
        constructor
        · exact Nat.ne_of_lt (hbound b hb)
        · intro e
          apply hdup b hb
          unfold approval_key at e
          have e1 : b.leave_request_id = lid := congrArg Prod.fst e
          have e2 : b.approval_level = lvl := congrArg Prod.snd e
          simp [e1, e2]
      · intro b hb
        rcases List.mem_append.mp hb with h1 | h1
        · exact Nat.lt_succ_of_lt (hbound b h1)
        · rw [List.mem_singleton] at h1
          subst h1
          exact Nat.lt_succ_self _

theorem approval_action_resolve_StOk (st : St) (leave : LeaveRequest)
    (actor : User) (oa : Option LeaveApproval) (st1 : St) (hok : StOk st)
    (h : approval_action_resolve st leave actor = Except.ok (oa, st1)) :
    StOk st1 := by
  unfold approval_action_resolve at h
  split at h
  · injection h with h
    injection h with h1 h2
    subst h2
    exact hok
  · split at h
    · split at h
      · rename_i b st2 c hg
        injection h with h
        injection h with h1 h2
        subst h2
        exact get_or_create_approval_StOk st leave.id actor.id 1 b _ c hok hg
      · exact absurd h (by simp)
    · injection h with h
      injection h with h1 h2
      subst h2
      exact hok

theorem get_or_create_balance_st (st : St) (uid tid : Nat) (y : Int)
    (b : LeaveBalance) (st4 : St)
    (h : get_or_create_balance st uid tid y = (b, st4)) :
    st4.approvals = st.approvals
    ∧ st4.next_approval_id = st.next_approval_id := by
  unfold get_or_create_balance at h
  split at h
  · injection h with h1 h2
    subst h2
    exact ⟨rfl, rfl⟩
  · injection h with h1 h2
    subst h2
    exact ⟨rfl, rfl⟩

theorem StOk_deduct_branch (s : St) (uid tid : Nat) (y : Int) (w : Rat)
    (h : StOk s) :
    StOk (match get_or_create_balance s uid tid y with
      | (balance, st4) => save_balance st4
          { balance with used_days := balance.used_days + w }) := by
  rcases hgb : get_or_create_balance s uid tid y with ⟨b, st4⟩
  obtain ⟨hga, hgc⟩ := get_or_create_balance_st _ _ _ _ _ _ hgb
  exact StOk_of_approvals_eq s _ hga hgc h

theorem approval_action_StOk (st : St) (lid : Nat) (actor : User)
    (input : ApprovalFormInput) (now : Nat) (st2 : St) (res : ActionResult)
    (hok : StOk st)
    (h : approval_action st lid actor input now = Except.ok (st2, res)) :
    StOk st2 := by
  unfold approval_action at h
  split at h
  · exact absurd h (by simp)
  · rename_i leave hfind
    split at h
    · exact absurd h (by simp)
    · rename_i st1 hres
      injection h with h
      injection h with h1 h2
      subst h1
      exact approval_action_resolve_StOk st leave actor none st1 hok hres
    · rename_i approval st1 hres
      have hst1 : StOk st1 :=
        approval_action_resolve_StOk st leave actor (some approval) st1
          hok hres
      have hmem : approval ∈ st1.approvals :=
        (approval_action_resolve_state st leave actor approval st1 hres).2.2
      have hsave : StOk (save_approval st1
          (decided_approval approval input actor now)) :=
        save_approval_StOk st1 _ approval hst1 hmem rfl rfl
      split at h
      · injection h with h
        injection h with h1 h2
        subst h1
        split
        · split
          · exact StOk_of_approvals_eq _ _ rfl rfl hsave
          · split
            · exact StOk_deduct_branch _ _ _ _ _
                (StOk_of_approvals_eq _ _ rfl rfl hsave)
            · exact StOk_of_approvals_eq _ _ rfl rfl hsave
        · split
          · exact StOk_of_approvals_eq _ _ rfl rfl hsave
          · exact hsave
      · injection h with h
        injection h with h1 h2
        subst h1
        exact hst1

theorem StOk_save_request (s : St) (r : LeaveRequest) (h : StOk s) :
    StOk (save_request s r) :=
  StOk_of_approvals_eq s _ rfl rfl h

theorem bulk_process_one_StOk (actor : User) (action comments : String)
    (now : Nat) (st : St) (lid : Nat) (st2 : St) (hok : StOk st)
    (h : bulk_process_one actor action comments now st lid
        = Except.ok st2) : StOk st2 := by
  unfold bulk_process_one at h
  split at h
  · exact absurd h (by simp)
  · rename_i leave hfind
    split at h
    · exact absurd h (by simp)
    · rename_i approval st1 c hg
      have hst1 : StOk st1 :=
        get_or_create_approval_StOk st leave.id actor.id 1 approval st1 c
          hok hg
      have hmem : approval ∈ st1.approvals :=
        (get_or_create_approval_state st leave.id actor.id 1 approval st1 c
          hg).2.2
      have hsaveF : ∀ (x : LeaveApproval), x.id = approval.id →
          approval_key x = approval_key approval →
          StOk (save_approval st1 x) :=
        fun x h1 h2 => save_approval_StOk st1 x approval hst1 hmem h1 h2
      split at h <;> split at h <;>
        (injection h with h; subst h) <;>
        first
          | exact StOk_save_request _ _ (hsaveF _ rfl rfl)
          | (split
             · exact StOk_save_request _ _
                 (StOk_deduct_branch _ _ _ _ _ (hsaveF _ rfl rfl))
             · exact StOk_save_request _ _ (hsaveF _ rfl rfl))

theorem bulk_loop_StOk (actor : User) (action comments : String)
    (now : Nat) :
    ∀ (ids : List Nat) (st : St) (count : Nat) (st2 : St) (n : Nat),
    StOk st →
    bulk_loop actor action comments now st count ids
        = Except.ok (st2, n) →
    StOk st2 := by
  intro ids
  induction ids with
  | nil =>
    intro st count st2 n hok h
    unfold bulk_loop at h
    injection h with h
    injection h with h1 h2
    subst h1
    exact hok
  | cons i rest ih =>
    intro st count st2 n hok h
    unfold bulk_loop at h
    split at h
    · exact absurd h (by simp)
    · rename_i st1 hone
      exact ih st1 (count + 1) st2 n
        (bulk_process_one_StOk actor action comments now st i st1 hok hone) h

theorem bulk_approval_StOk (st : St) (actor : User) (input : BulkFormInput)
    (now : Nat) (st2 : St) (n : Nat) (v : Bool) (hok : StOk st)
    (h : bulk_approval st actor input now = Except.ok (st2, n, v)) :
    StOk st2 := by
  unfold bulk_approval at h
  split at h
  · injection h with h
    injection h with h1 h2
    subst h1
    exact hok
  · split at h
    · split at h
      · exact absurd h (by simp)
      · rename_i st3 count hloop
        injection h with h
        injection h with h1 h2
        subst h1
        exact bulk_loop_StOk actor input.action input.comments now
          input.leave_request_ids st 0 st3 count hok hloop
    · injection h with h
      injection h with h1 h2
      subst h1
      exact hok

theorem leave_create_submit_StOk (st : St) (u : User)
    (f : LeaveRequestFormInput) (today : Int) (now : Nat) (st2 : St)
    (ok2 : Bool) (hok : StOk st)
    (h : leave_create_submit st u f today now = Except.ok (st2, ok2)) :
    StOk st2 := by
  unfold leave_create_submit at h
  split at h
  · injection h with h
    injection h with h1 h2
    subst h1
    exact hok
  · by_cases hreq : f.leave_type.requires_approval = true
    · rw [if_pos hreq] at h
      split at h
      · exact absurd h (by simp)
      · rename_i st3 hcr
        injection h with h
        injection h with h1 h2
        subst h1
        refine create_approval_StOk _ _ _ _ _ ?_ hcr
        exact StOk_of_approvals_eq _ _ rfl rfl hok
    · rw [if_neg hreq] at h
      injection h with h
      injection h with h1 h2
      subst h1
      exact StOk_of_approvals_eq _ _ rfl rfl hok

/-- C3: from any state whose approvals table satisfies the unique
(leave_request, approval_level) constraint (with distinct primary keys),
every approval-creating operation of the repository — direct insert,
get-or-create, the single approval view, the bulk view and request
submission — preserves it whenever it succeeds, and a duplicate insert
attempt fails with an IntegrityError instead of producing two rows: in the
concrete two-manager scenario, the department manager acting on a request
whose level-1 approval is already assigned to the service manager gets an
IntegrityError. -/
theorem C3_approval_uniqueness (st : St) (hok : StOk st) :
    (∀ lid ap lvl st2, create_approval st lid ap lvl = Except.ok st2 →
      ApprovalsOk st2.approvals)
    ∧ (∀ lid aid lvl a st2 c,
      get_or_create_approval st lid aid lvl = Except.ok (a, st2, c) →
      ApprovalsOk st2.approvals)
    ∧ (∀ lid actor input now st2 res,
      approval_action st lid actor input now = Except.ok (st2, res) →
      ApprovalsOk st2.approvals)
    ∧ (∀ actor input now st2 n v,
      bulk_approval st actor input now = Except.ok (st2, n, v) →
      ApprovalsOk st2.approvals)
    ∧ (∀ u f today now st2 b,
      leave_create_submit st u f today now = Except.ok (st2, b) →
      ApprovalsOk st2.approvals)
    ∧ approval_action exC3_twoMgr_st 1 exC3_deptManager approve_input 1
        = Except.error "IntegrityError" := by
  refine ⟨?_, ?_, ?_, ?_, ?_, rfl⟩
  · intro lid ap lvl st2 h
    exact (create_approval_StOk st lid ap lvl st2 hok h).1
  · intro lid aid lvl a st2 c h
    exact (get_or_create_approval_StOk st lid aid lvl a st2 c hok h).1
  · intro lid actor input now st2 res h
    exact (approval_action_StOk st lid actor input now st2 res hok h).1
  · intro actor input now st2 n v h
    exact (bulk_approval_StOk st actor input now st2 n v hok h).1
  · intro u f today now st2 b h
    exact (leave_create_submit_StOk st u f today now st2 b hok h).1

/-- Witness for C3: one concrete approve decision on `exSt` keeps the
approvals table unique. -/
theorem C3_approval_uniqueness_witness :
    StOk exSt
    ∧ approval_action exSt 1 exManager approve_input 1
        = Except.ok (exC3_after, ActionResult.redirected)
    ∧ ApprovalsOk exC3_after.approvals :=
  ⟨by decide,
   by with_unfolding_all rfl,
   (C3_approval_uniqueness exSt (by decide)).2.2.1 1 exManager
     approve_input 1 exC3_after ActionResult.redirected
     (by with_unfolding_all rfl)⟩
